import Mathlib

/-!
Verification of the collector engine of this repository against its
natural-language specification.

The central object is the CPU collector's counter-consolidation cache
(`updateCPUStats` in `collector/cpu_linux.go`): a per-CPU ratchet over raw
kernel counter snapshots, with a full reset on topology change and a
per-CPU reset on an idle jump-back of at least `jumpBackSeconds`.

Machine floats (`float64`) are modelled as rationals: the algorithm only
compares, subtracts once against a small constant, and copies values, so
the order-theoretic behaviour is captured exactly.
-/

namespace GBS

/-- Mirror of `procfs.CPUStat`: per-CPU cumulative seconds, one field per
accounting mode. -/
structure CPUStat where
  User : ℚ
  Nice : ℚ
  System : ℚ
  Idle : ℚ
  Iowait : ℚ
  IRQ : ℚ
  SoftIRQ : ℚ
  Steal : ℚ
  Guest : ℚ
  GuestNice : ℚ
deriving DecidableEq, Repr

/-- Mirror of the Go zero value `procfs.CPUStat\x7b\x7d`. -/
def CPUStat.empty : CPUStat := ⟨0, 0, 0, 0, 0, 0, 0, 0, 0, 0⟩

/-- Mirror of `const jumpBackSeconds = 3.0` (cpu_linux.go line 51). -/
def jumpBackSeconds : ℚ := 3.0

/-- One field-level step of the consolidation loop: `if n.F >= cached.F
\x7b cached.F = n.F \x7d else \x7b log \x7d` (cpu_linux.go lines 147-175). -/
def ratchet (c n : ℚ) : ℚ := if n ≥ c then n else c

/-- The body of the per-CPU loop of `updateCPUStats` (cpu_linux.go lines
140-175) for one index: first the idle jump-back reset check against the
cached entry, then the independent per-field ratchet.

Modelled from the spec: the source file under `src/` is truncated after
the `Iowait` ratchet step; the identically-shaped ratchet steps for
`IRQ`, `SoftIRQ`, `Steal`, `Guest` and `GuestNice` follow spec section 4.3
step 4 (fieldwise ratchet over every tracked field, idle being the only
reset trigger). -/
def updateOne (c n : CPUStat) : CPUStat :=
  let c := if c.Idle - n.Idle ≥ jumpBackSeconds then CPUStat.empty else c
  { User := if n.User ≥ c.User then n.User else c.User
    Nice := if n.Nice ≥ c.Nice then n.Nice else c.Nice
    System := if n.System ≥ c.System then n.System else c.System
    Idle := if n.Idle ≥ c.Idle then n.Idle else c.Idle
    Iowait := if n.Iowait ≥ c.Iowait then n.Iowait else c.Iowait
    IRQ := if n.IRQ ≥ c.IRQ then n.IRQ else c.IRQ
    SoftIRQ := if n.SoftIRQ ≥ c.SoftIRQ then n.SoftIRQ else c.SoftIRQ
    Steal := if n.Steal ≥ c.Steal then n.Steal else c.Steal
    Guest := if n.Guest ≥ c.Guest then n.Guest else c.Guest
    GuestNice := if n.GuestNice ≥ c.GuestNice then n.GuestNice else c.GuestNice }

/-- Mirror of `updateCPUStats` (cpu_linux.go lines 129-175): reset the
cache to an all-zero slice of the new length when the CPU count changed,
then run the per-index loop body. In the Go loop each index is written
exactly once and reads only its own slot, so it is a `zipWith`. -/
def updateCPUStats (cache newStats : List CPUStat) : List CPUStat :=
  List.zipWith updateOne
    (if cache.length ≠ newStats.length then
      List.replicate newStats.length CPUStat.empty
    else cache)
    newStats

/-- A sequence of scrapes: fold `updateCPUStats` over successive raw
snapshots, starting from the cache as it is at collector construction. -/
def runUpdates (init : List CPUStat) (snaps : List (List CPUStat)) : List CPUStat :=
  snaps.foldl updateCPUStats init

/-- Fieldwise order on cached entries: every exposed counter of `a` is at
most the corresponding counter of `b`. -/
def CPUStat.le (a b : CPUStat) : Prop :=
  a.User ≤ b.User ∧ a.Nice ≤ b.Nice ∧ a.System ≤ b.System ∧ a.Idle ≤ b.Idle ∧
  a.Iowait ≤ b.Iowait ∧ a.IRQ ≤ b.IRQ ∧ a.SoftIRQ ≤ b.SoftIRQ ∧
  a.Steal ≤ b.Steal ∧ a.Guest ≤ b.Guest ∧ a.GuestNice ≤ b.GuestNice

instance : DecidablePred (fun p : CPUStat × CPUStat => CPUStat.le p.1 p.2) :=
  fun _ => by unfold CPUStat.le; infer_instance

instance (a b : CPUStat) : Decidable (CPUStat.le a b) := by
  unfold CPUStat.le; infer_instance

/-! Emission side of the CPU collector's `Update` (cpu_linux.go lines
104-126): for each cached entry, eight counter samples on the
`node_cpu_seconds_total` family, plus, when `--collector.cpu.guest` is
enabled, two samples on the `node_cpu_guest_seconds_total` family. -/

/-- The two metric families emitted by the loop in `Update`. -/
inductive MetricFamily
  | cpuSeconds
  | cpuGuestSeconds
deriving DecidableEq, Repr, BEq

/-- One `MustNewConstMetric` emission: family, counter value, the CPU
index (rendered as a decimal string label in the source) and the `mode`
label. -/
structure Sample where
  family : MetricFamily
  value : ℚ
  cpu : ℕ
  mode : String
deriving DecidableEq, Repr

/-- The eight unconditional samples for one cached entry (cpu_linux.go
lines 109-116). -/
def cpuSamples (i : ℕ) (s : CPUStat) : List Sample :=
  [⟨.cpuSeconds, s.User, i, "user"⟩,
   ⟨.cpuSeconds, s.Nice, i, "nice"⟩,
   ⟨.cpuSeconds, s.System, i, "system"⟩,
   ⟨.cpuSeconds, s.Idle, i, "idle"⟩,
   ⟨.cpuSeconds, s.Iowait, i, "iowait"⟩,
   ⟨.cpuSeconds, s.IRQ, i, "irq"⟩,
   ⟨.cpuSeconds, s.SoftIRQ, i, "softirq"⟩,
   ⟨.cpuSeconds, s.Steal, i, "steal"⟩]

/-- The two guest samples for one cached entry (cpu_linux.go lines
118-122), emitted only under the `enableCPUGuest` flag. -/
def guestSamples (i : ℕ) (s : CPUStat) : List Sample :=
  [⟨.cpuGuestSeconds, s.Guest, i, "user"⟩,
   ⟨.cpuGuestSeconds, s.GuestNice, i, "nice"⟩]

/-- The emission loop `for cpuID, cpuStat := range c.cpuStats` of
`Update`, starting at index `i`. -/
def emitFrom (enableCPUGuest : Bool) (i : ℕ) : List CPUStat → List Sample
  | [] => []
  | s :: rest =>
      cpuSamples i s ++ (if enableCPUGuest then guestSamples i s else []) ++
        emitFrom enableCPUGuest (i + 1) rest

/-- All samples the CPU collector's `Update` emits for a given cached
state, as a function of the `--collector.cpu.guest` flag. -/
def cpuUpdateEmit (enableCPUGuest : Bool) (stats : List CPUStat) : List Sample :=
  emitFrom enableCPUGuest 0 stats

/-- The guest-family samples alone, in emission order, starting at `i`. -/
def guestOnly (i : ℕ) : List CPUStat → List Sample
  | [] => []
  | s :: rest => guestSamples i s ++ guestOnly (i + 1) rest

/-! The collector factories and the stateless collectors' `Update`
operations. External filesystem handles are modelled as records; the
outcome of opening or reading one is passed in as an `Except` value,
since the embedding cannot perform I/O. -/

/-- Handle to a mounted procfs, as returned by `procfs.NewFS`. -/
structure ProcFS where
  mountPoint : String
deriving DecidableEq, Repr

/-- Handle to the bcache sysfs tree, as returned by `bcache.NewFS`. -/
structure BcacheFS where
  mountPoint : String
deriving DecidableEq, Repr

/-- State of `cpuCollector` relevant to this development: the procfs
handle and the consolidation cache, empty at construction. -/
structure CpuCollector where
  fs : ProcFS
  cpuStats : List CPUStat
deriving DecidableEq, Repr

/-- State of `buddyinfoCollector`: the procfs handle. -/
structure BuddyinfoCollector where
  fs : ProcFS
deriving DecidableEq, Repr

/-- State of `bcacheCollector`: the bcache sysfs handle. -/
structure BcacheCollector where
  fs : BcacheFS
deriving DecidableEq, Repr

/-- Mirror of `NewCPUCollector` (cpu_linux.go lines 66-70): propagate a
procfs open failure, otherwise construct the collector with an empty
cache. -/
def NewCPUCollector (fsResult : Except String ProcFS) : Except String CpuCollector :=
  match fsResult with
  | .error err => .error ("failed to open procfs: " ++ err)
  | .ok fs => .ok ⟨fs, []⟩

/-- Mirror of `NewBuddyinfoCollector` (buddyinfo source lines 43-54):
propagate a procfs open failure, otherwise construct the collector. -/
def NewBuddyinfoCollector (fsResult : Except String ProcFS) : Except String BuddyinfoCollector :=
  match fsResult with
  | .error err => .error ("failed to open procfs: " ++ err)
  | .ok fs => .ok ⟨fs⟩

/-- Mirror of `NewBcacheCollector` (bcache source lines 43-53):
propagate a sysfs open failure, otherwise construct the collector. -/
def NewBcacheCollector (fsResult : Except String BcacheFS) : Except String BcacheCollector :=
  match fsResult with
  | .error err => .error ("failed to open sysfs: " ++ err)
  | .ok fs => .ok ⟨fs⟩

/-- Mirror of `procfs.BuddyInfo` entries: node, zone, and the per-size
free block counts. -/
structure BuddyInfoEntry where
  Node : String
  Zone : String
  Sizes : List ℚ
deriving DecidableEq, Repr

/-- One buddyinfo gauge sample: value plus the `node`, `zone`, `size`
labels (`size` is the index into `Sizes`, rendered as decimal). -/
structure BuddySample where
  value : ℚ
  node : String
  zone : String
  size : ℕ
deriving DecidableEq, Repr

/-- Mirror of `(*buddyinfoCollector).Update` (buddyinfo source lines
58-75). The read outcome is a parameter; the result pairs the samples
emitted to the channel with the returned error, `none` meaning `nil`.
The source error text uses a contraction; it is reproduced here without
the apostrophe. -/
def buddyinfoUpdate (readResult : Except String (List BuddyInfoEntry)) :
    List BuddySample × Option String :=
  match readResult with
  | .error e => ([], some ("couldnt get buddyinfo: " ++ e))
  | .ok buddyInfo =>
      ((buddyInfo.map fun entry =>
          entry.Sizes.enum.map fun p => ⟨p.2, entry.Node, entry.Zone, p.1⟩).flatten,
        none)

/-- Abstract per-device bcache statistics record (`bcache.Stats`); only
its identity matters here, the metric body of `updateBcacheStats` being
outside the embedded excerpt. -/
structure BcacheStats where
  Name : String
deriving DecidableEq, Repr

/-- One bcache metric emission; the shape of the labels is irrelevant to
the claims, so the sample is kept abstract as a value tagged record. -/
structure BcacheSample where
  name : String
  value : ℚ
deriving DecidableEq, Repr

/-- Mirror of `(*bcacheCollector).Update` (bcache source lines 57-73):
choose the read according to the `priorityStats` flag, return the error
on failure without emitting, otherwise emit `updateBcacheStats` for each
device. The body of `updateBcacheStats` is truncated in the source
excerpt, so it is taken as a parameter: every claim proved here holds
for any emission body. -/
def bcacheUpdate (priorityStats : Bool)
    (statsFull statsNoPriority : Except String (List BcacheStats))
    (updateBcacheStats : BcacheStats → List BcacheSample) :
    List BcacheSample × Option String :=
  match (if priorityStats then statsFull else statsNoPriority) with
  | .error e => ([], some ("failed to retrieve bcache stats: " ++ e))
  | .ok stats => ((stats.map updateBcacheStats).flatten, none)

/-- Mirror of `sysfs.SystemCPUCpufreqStats`: the optional kilohertz
readings are nullable pointers in the source, hence `Option`. -/
structure CPUFreqStats where
  Name : String
  CpuinfoCurrentFrequency : Option ℕ
  CpuinfoMinimumFrequency : Option ℕ
  CpuinfoMaximumFrequency : Option ℕ
deriving DecidableEq, Repr

/-- The three frequency metric families of the cpufreq excerpt. -/
inductive FreqFamily
  | currentHz
  | minHz
  | maxHz
deriving DecidableEq, Repr, BEq

/-- One cpufreq gauge sample: family, hertz value, `cpu` label. -/
structure FreqSample where
  family : FreqFamily
  value : ℚ
  cpuName : String
deriving DecidableEq, Repr

/-- The samples one record contributes in `(*cpuFreqCollector).Update`
(cpufreq source lines 91-113): a sample per present optional field, the
kilohertz reading times 1000.0.

Modelled from the spec: the source excerpt is truncated inside the
maximum-frequency emission; its value expression follows the pattern of
the current and minimum cases and the comment `sysfs cpufreq values are
kHz, thus multiply by 1000 to export base units (hz)`. -/
def freqSamples (stats : CPUFreqStats) : List FreqSample :=
  (match stats.CpuinfoCurrentFrequency with
   | some v => [⟨.currentHz, (v : ℚ) * 1000, stats.Name⟩]
   | none => []) ++
  (match stats.CpuinfoMinimumFrequency with
   | some v => [⟨.minHz, (v : ℚ) * 1000, stats.Name⟩]
   | none => []) ++
  (match stats.CpuinfoMaximumFrequency with
   | some v => [⟨.maxHz, (v : ℚ) * 1000, stats.Name⟩]
   | none => [])

/-- Mirror of `(*cpuFreqCollector).Update` (cpufreq source lines 85-113):
a read failure returns the error unchanged with nothing emitted,
otherwise every record contributes its `freqSamples`. -/
def cpuFreqUpdate (readResult : Except String (List CPUFreqStats)) :
    List FreqSample × Option String :=
  match readResult with
  | .error e => ([], some e)
  | .ok cpuFreqs => ((cpuFreqs.map freqSamples).flatten, none)

/-- Field selector matching `freqSamples`: which optional kilohertz
reading feeds each family. -/
def freqField (stats : CPUFreqStats) : FreqFamily → Option ℕ
  | .currentHz => stats.CpuinfoCurrentFrequency
  | .minHz => stats.CpuinfoMinimumFrequency
  | .maxHz => stats.CpuinfoMaximumFrequency

/-! Basic lemmas about the field-level ratchet. -/

theorem le_ratchet (c n : ℚ) : c ≤ ratchet c n := by
  unfold ratchet
  split_ifs with h
  · exact h
  · exact le_refl c

theorem ratchet_of_le (c n : ℚ) (h : c ≤ n) : ratchet c n = n := by
  unfold ratchet
  rw [if_pos h]

theorem ratchet_idem (c n : ℚ) : ratchet (ratchet c n) n = ratchet c n := by
  unfold ratchet
  by_cases h : n ≥ c
  · rw [if_pos h, if_pos (le_refl n)]
  · rw [if_neg h, if_neg h]

/-! Lemmas about the per-CPU loop body. The fieldwise ratchet of a whole
entry is given a name so that goals stay small. -/

/-- All ten field ratchets of one loop iteration applied at once. -/
def ratchetAll (c n : CPUStat) : CPUStat :=
  ⟨ratchet c.User n.User, ratchet c.Nice n.Nice, ratchet c.System n.System,
   ratchet c.Idle n.Idle, ratchet c.Iowait n.Iowait, ratchet c.IRQ n.IRQ,
   ratchet c.SoftIRQ n.SoftIRQ, ratchet c.Steal n.Steal,
   ratchet c.Guest n.Guest, ratchet c.GuestNice n.GuestNice⟩

theorem updateOne_of_not_jump (c n : CPUStat)
    (h : ¬ (c.Idle - n.Idle ≥ jumpBackSeconds)) :
    updateOne c n = ratchetAll c n := by
  unfold updateOne
  rewrite [if_neg h]
  rfl

theorem updateOne_of_jump (c n : CPUStat)
    (h : c.Idle - n.Idle ≥ jumpBackSeconds) :
    updateOne c n = ratchetAll CPUStat.empty n := by
  unfold updateOne
  rewrite [if_pos h]
  rfl

theorem le_ratchetAll (c n : CPUStat) : CPUStat.le c (ratchetAll c n) :=
  ⟨le_ratchet _ _, le_ratchet _ _, le_ratchet _ _, le_ratchet _ _,
   le_ratchet _ _, le_ratchet _ _, le_ratchet _ _, le_ratchet _ _,
   le_ratchet _ _, le_ratchet _ _⟩

theorem le_updateOne (c n : CPUStat)
    (h : ¬ (c.Idle - n.Idle ≥ jumpBackSeconds)) :
    CPUStat.le c (updateOne c n) := by
  rewrite [updateOne_of_not_jump c n h]
  exact le_ratchetAll c n

theorem ratchetAll_of_le (c n : CPUStat) (h : CPUStat.le c n) :
    ratchetAll c n = n := by
  obtain ⟨h₁, h₂, h₃, h₄, h₅, h₆, h₇, h₈, h₉, h₁₀⟩ := h
  unfold ratchetAll
  rewrite [ratchet_of_le _ _ h₁, ratchet_of_le _ _ h₂, ratchet_of_le _ _ h₃,
    ratchet_of_le _ _ h₄, ratchet_of_le _ _ h₅, ratchet_of_le _ _ h₆,
    ratchet_of_le _ _ h₇, ratchet_of_le _ _ h₈, ratchet_of_le _ _ h₉,
    ratchet_of_le _ _ h₁₀]
  rfl

theorem updateOne_of_le (c n : CPUStat) (h : CPUStat.le c n) :
    updateOne c n = n := by
  have hj : ¬ (c.Idle - n.Idle ≥ jumpBackSeconds) := by
    unfold jumpBackSeconds
    intro hcon
    have hIdle := h.2.2.2.1
    have : (0 : ℚ) < 3.0 := by norm_num
    linarith
  rewrite [updateOne_of_not_jump c n hj]
  exact ratchetAll_of_le c n h

theorem ratchetAll_idem (c n : CPUStat) :
    ratchetAll (ratchetAll c n) n = ratchetAll c n := by
  unfold ratchetAll
  simp only [CPUStat.mk.injEq]
  exact ⟨ratchet_idem _ _, ratchet_idem _ _, ratchet_idem _ _, ratchet_idem _ _,
    ratchet_idem _ _, ratchet_idem _ _, ratchet_idem _ _, ratchet_idem _ _,
    ratchet_idem _ _, ratchet_idem _ _⟩

theorem updateOne_idem (c n : CPUStat) :
    updateOne (updateOne c n) n = updateOne c n := by
  by_cases hj : c.Idle - n.Idle ≥ jumpBackSeconds
  · rewrite [updateOne_of_jump c n hj]
    by_cases hj₂ : (ratchetAll CPUStat.empty n).Idle - n.Idle ≥ jumpBackSeconds
    · rewrite [updateOne_of_jump _ n hj₂]
      rfl
    · rewrite [updateOne_of_not_jump _ n hj₂]
      exact ratchetAll_idem CPUStat.empty n
  · rewrite [updateOne_of_not_jump c n hj]
    have hj₂ : ¬ ((ratchetAll c n).Idle - n.Idle ≥ jumpBackSeconds) := by
      show ¬ (ratchet c.Idle n.Idle - n.Idle ≥ jumpBackSeconds)
      have hpos : (0 : ℚ) < jumpBackSeconds := by unfold jumpBackSeconds; norm_num
      unfold ratchet
      split_ifs with h
      · intro hcon; linarith
      · exact hj
    rewrite [updateOne_of_not_jump _ n hj₂]
    exact ratchetAll_idem c n

/-! Lemmas about the whole-cache consolidation step. -/

theorem length_updateCPUStats (cache newStats : List CPUStat) :
    (updateCPUStats cache newStats).length = newStats.length := by
  unfold updateCPUStats
  split_ifs with h
  · simp
  · rw [not_not] at h
    simp [h]

theorem updateCPUStats_eq_zipWith (cache newStats : List CPUStat)
    (h : cache.length = newStats.length) :
    updateCPUStats cache newStats = List.zipWith updateOne cache newStats := by
  unfold updateCPUStats
  rw [if_neg (not_not_intro h)]

theorem getD_zipWith (f : CPUStat → CPUStat → CPUStat) :
    ∀ (l₁ l₂ : List CPUStat) (i : ℕ), i < l₁.length → i < l₂.length →
      (List.zipWith f l₁ l₂).getD i CPUStat.empty =
        f (l₁.getD i CPUStat.empty) (l₂.getD i CPUStat.empty)
  | [], _, i, h₁, _ => absurd h₁ (by simp)
  | _ :: _, [], _, _, h₂ => absurd h₂ (by simp)
  | a :: l₁, b :: l₂, 0, _, _ => rfl
  | a :: l₁, b :: l₂, (i + 1), h₁, h₂ => by
      simp only [List.zipWith_cons_cons, List.getD_cons_succ]
      exact getD_zipWith f l₁ l₂ i (by simpa using h₁) (by simpa using h₂)

/-- C1: over any consolidation step whose cached length matches the raw
reading (no topology reset) and whose idle jump-back reset did not fire
for index `i`, no cached counter field of CPU `i` decreases from its
previous cached value. -/
theorem updateCPUStats_no_counter_decrease
    (cache newStats : List CPUStat) (i : ℕ)
    (hlen : cache.length = newStats.length) (hi : i < newStats.length)
    (hnojump : ¬ ((cache.getD i CPUStat.empty).Idle -
        (newStats.getD i CPUStat.empty).Idle ≥ jumpBackSeconds)) :
    CPUStat.le (cache.getD i CPUStat.empty)
      ((updateCPUStats cache newStats).getD i CPUStat.empty) := by
  rw [updateCPUStats_eq_zipWith cache newStats hlen,
    getD_zipWith updateOne cache newStats i (hlen ▸ hi) hi]
  exact le_updateOne _ _ hnojump

/-- Named field projections, to quantify over the tracked counters. -/
inductive StatField
  | user
  | nice
  | system
  | idle
  | iowait
  | irq
  | softirq
  | steal
  | guest
  | guestNice
deriving DecidableEq, Repr

/-- Projection of a cached entry by field name. -/
def CPUStat.field (s : CPUStat) : StatField → ℚ
  | .user => s.User
  | .nice => s.Nice
  | .system => s.System
  | .idle => s.Idle
  | .iowait => s.Iowait
  | .irq => s.IRQ
  | .softirq => s.SoftIRQ
  | .steal => s.Steal
  | .guest => s.Guest
  | .guestNice => s.GuestNice

theorem field_ratchetAll (c n : CPUStat) (f : StatField) :
    (ratchetAll c n).field f = ratchet (c.field f) (n.field f) := by
  cases f <;> rfl

theorem ratchet_of_lt (c n : ℚ) (h : n < c) : ratchet c n = c := by
  unfold ratchet
  rw [if_neg (not_le.mpr h)]

/-- Witness for C1 at a concrete step: one CPU whose raw idle moved
back by less than the threshold and whose raw user regressed. -/
theorem updateCPUStats_no_counter_decrease_witness :
    CPUStat.le (([⟨5, 5, 5, 10, 5, 5, 5, 5, 5, 5⟩] :
        List CPUStat).getD 0 CPUStat.empty)
      ((updateCPUStats [⟨5, 5, 5, 10, 5, 5, 5, 5, 5, 5⟩]
        [⟨4, 6, 6, 9, 6, 6, 6, 6, 6, 6⟩]).getD 0 CPUStat.empty) :=
  updateCPUStats_no_counter_decrease
    [⟨5, 5, 5, 10, 5, 5, 5, 5, 5, 5⟩] [⟨4, 6, 6, 9, 6, 6, 6, 6, 6, 6⟩] 0
    rfl (by norm_num)
    (by simp only [List.getD_cons_zero]; norm_num [jumpBackSeconds])

/-- C4: when the idle jump-back reset did not fire for CPU `i` (and no
topology change occurred), a strict regression in any non-idle field
keeps the previously cached value for that field; every field of CPU `i`
follows its own independent ratchet (no reset of the entry, however
large the regression); and every CPU `j` is updated from its own slots
alone. -/
theorem updateCPUStats_regression_localized
    (cache newStats : List CPUStat) (i : ℕ)
    (hlen : cache.length = newStats.length) (hi : i < newStats.length)
    (hnojump : ¬ ((cache.getD i CPUStat.empty).Idle -
        (newStats.getD i CPUStat.empty).Idle ≥ jumpBackSeconds)) :
    (∀ f : StatField, f ≠ .idle →
        (newStats.getD i CPUStat.empty).field f <
          (cache.getD i CPUStat.empty).field f →
        ((updateCPUStats cache newStats).getD i CPUStat.empty).field f =
          (cache.getD i CPUStat.empty).field f)
    ∧ (∀ f : StatField,
        ((updateCPUStats cache newStats).getD i CPUStat.empty).field f =
          ratchet ((cache.getD i CPUStat.empty).field f)
            ((newStats.getD i CPUStat.empty).field f))
    ∧ (∀ j, j < newStats.length →
        (updateCPUStats cache newStats).getD j CPUStat.empty =
          updateOne (cache.getD j CPUStat.empty) (newStats.getD j CPUStat.empty)) := by
  have hstep : ∀ j, j < newStats.length →
      (updateCPUStats cache newStats).getD j CPUStat.empty =
        updateOne (cache.getD j CPUStat.empty) (newStats.getD j CPUStat.empty) := by
    intro j hj
    rw [updateCPUStats_eq_zipWith cache newStats hlen,
      getD_zipWith updateOne cache newStats j (hlen ▸ hj) hj]
  have hfield : ∀ f : StatField,
      ((updateCPUStats cache newStats).getD i CPUStat.empty).field f =
        ratchet ((cache.getD i CPUStat.empty).field f)
          ((newStats.getD i CPUStat.empty).field f) := by
    intro f
    rw [hstep i hi, updateOne_of_not_jump _ _ hnojump, field_ratchetAll]
  refine ⟨fun f _ hreg => ?_, hfield, hstep⟩
  rw [hfield f, ratchet_of_lt _ _ hreg]

/-- Witness for C4: cached user 50 against raw user 49 with idle moving
forward; the exposed user value stays 50. -/
theorem updateCPUStats_regression_localized_witness :
    ((updateCPUStats [⟨50, 5, 5, 100, 5, 5, 5, 5, 5, 5⟩]
        [⟨49, 6, 6, 101, 6, 6, 6, 6, 6, 6⟩]).getD 0 CPUStat.empty).field .user =
      (([⟨50, 5, 5, 100, 5, 5, 5, 5, 5, 5⟩] :
        List CPUStat).getD 0 CPUStat.empty).field .user :=
  (updateCPUStats_regression_localized
      [⟨50, 5, 5, 100, 5, 5, 5, 5, 5, 5⟩] [⟨49, 6, 6, 101, 6, 6, 6, 6, 6, 6⟩] 0
      rfl (by norm_num)
      (by simp only [List.getD_cons_zero]; norm_num [jumpBackSeconds])).1
    .user (by decide)
    (by simp only [List.getD_cons_zero]; norm_num [CPUStat.field])

theorem zipWith_replicate_left :
    ∀ l : List CPUStat,
      List.zipWith updateOne (List.replicate l.length CPUStat.empty) l =
        l.map (updateOne CPUStat.empty)
  | [] => rfl
  | a :: t => by
      simp only [List.length_cons, List.replicate_succ, List.zipWith_cons_cons,
        List.map_cons]
      rewrite [zipWith_replicate_left t]
      rfl

theorem updateCPUStats_length_change (cache newStats : List CPUStat)
    (hlen : cache.length ≠ newStats.length) :
    updateCPUStats cache newStats = newStats.map (updateOne CPUStat.empty) := by
  unfold updateCPUStats
  rewrite [if_pos hlen]
  exact zipWith_replicate_left newStats

/-- C5: whenever the raw reading's CPU count differs from the cached
length, the whole cache is discarded: the result is determined by the
raw reading alone, each entry consolidated against an all-zero
baseline. -/
theorem updateCPUStats_topology_reset (cache newStats : List CPUStat)
    (hlen : cache.length ≠ newStats.length) :
    updateCPUStats cache newStats = newStats.map (updateOne CPUStat.empty) :=
  updateCPUStats_length_change cache newStats hlen

/-- Witness for C5: a two-CPU history meeting a one-CPU reading; the
surviving CPU restarts from the zero baseline, ignoring both old
entries. -/
theorem updateCPUStats_topology_reset_witness :
    updateCPUStats
        [⟨50, 5, 5, 100, 5, 5, 5, 5, 5, 5⟩, ⟨60, 6, 6, 200, 6, 6, 6, 6, 6, 6⟩]
        [⟨1, 1, 1, 1, 1, 1, 1, 1, 1, 1⟩] =
      [⟨1, 1, 1, 1, 1, 1, 1, 1, 1, 1⟩].map (updateOne CPUStat.empty) :=
  updateCPUStats_topology_reset
    [⟨50, 5, 5, 100, 5, 5, 5, 5, 5, 5⟩, ⟨60, 6, 6, 200, 6, 6, 6, 6, 6, 6⟩]
    [⟨1, 1, 1, 1, 1, 1, 1, 1, 1, 1⟩] (by decide)

theorem zipWith_updateOne_idem :
    ∀ a b : List CPUStat,
      List.zipWith updateOne (List.zipWith updateOne a b) b =
        List.zipWith updateOne a b
  | [], _ => rfl
  | _ :: _, [] => rfl
  | x :: xs, y :: ys => by
      simp only [List.zipWith_cons_cons]
      rewrite [updateOne_idem x y, zipWith_updateOne_idem xs ys]
      rfl

/-- C6: the consolidation step is idempotent: re-running
`updateCPUStats` with the same raw snapshot leaves the cache as after
the first run, whatever the starting state. -/
theorem updateCPUStats_idempotent (cache newStats : List CPUStat) :
    updateCPUStats (updateCPUStats cache newStats) newStats =
      updateCPUStats cache newStats := by
  rewrite [updateCPUStats_eq_zipWith _ _ (length_updateCPUStats cache newStats)]
  unfold updateCPUStats
  exact zipWith_updateOne_idem _ newStats

theorem updateCPUStats_of_forall₂ (cache newStats : List CPUStat)
    (h : List.Forall₂ CPUStat.le cache newStats) :
    updateCPUStats cache newStats = newStats := by
  rewrite [updateCPUStats_eq_zipWith cache newStats h.length_eq]
  induction h with
  | nil => rfl
  | cons ha _ ih =>
      simp only [List.zipWith_cons_cons]
      rewrite [updateOne_of_le _ _ ha, ih]
      rfl

theorem map_updateOne_empty :
    ∀ l : List CPUStat, (∀ st ∈ l, CPUStat.le CPUStat.empty st) →
      l.map (updateOne CPUStat.empty) = l
  | [], _ => rfl
  | a :: t, h => by
      simp only [List.map_cons]
      rewrite [updateOne_of_le _ _ (h a (List.mem_cons_self a t)),
        map_updateOne_empty t (fun st hst => h st (List.mem_cons_of_mem a hst))]
      rfl

theorem updateCPUStats_nil_cache (s : List CPUStat)
    (h : ∀ st ∈ s, CPUStat.le CPUStat.empty st) :
    updateCPUStats [] s = s := by
  cases s with
  | nil => rfl
  | cons a t =>
      rewrite [updateCPUStats_length_change [] (a :: t) (by simp)]
      exact map_updateOne_empty (a :: t) h

/-- C2 counterexample: a one-snapshot sequence, trivially of constant
CPU count with (vacuously) non-decreasing fields, whose idle reading is
negative; the consolidated cache keeps the zero baseline for idle
instead of equalling the raw snapshot. -/
theorem runUpdates_raw_adoption_counterexample :
    runUpdates [] [[⟨0, 0, 0, -5, 0, 0, 0, 0, 0, 0⟩]] ≠
      [(⟨0, 0, 0, -5, 0, 0, 0, 0, 0, 0⟩ : CPUStat)] := by
  show updateCPUStats [] [⟨0, 0, 0, -5, 0, 0, 0, 0, 0, 0⟩] ≠ _
  norm_num [updateCPUStats, updateOne, jumpBackSeconds, CPUStat.empty]

/-- C2 (amended): for every sequence of raw snapshots whose first
snapshot has non-negative fields and whose consecutive snapshots are
fieldwise non-decreasing (hence of constant CPU count), the cache after
each `updateCPUStats` call, starting from the empty cache of
construction, equals the raw snapshot just supplied. -/
theorem runUpdates_noop_on_monotone
    (snaps : List (List CPUStat))
    (hchain : snaps.Chain' (List.Forall₂ CPUStat.le))
    (hhead : ∀ s, snaps.head? = some s → ∀ st ∈ s, CPUStat.le CPUStat.empty st)
    (m : ℕ) (hm : m < snaps.length) :
    runUpdates [] (snaps.take (m + 1)) = snaps.get ⟨m, hm⟩ := by
  induction m with
  | zero =>
      cases snaps with
      | nil => exact absurd hm (by simp)
      | cons s rest =>
          show updateCPUStats [] s = s
          exact updateCPUStats_nil_cache s (hhead s rfl)
  | succ k ih =>
      have hk : k < snaps.length := Nat.lt_of_succ_lt hm
      have hget : snaps[k + 1]? = some (snaps.get ⟨k + 1, hm⟩) := by
        rewrite [List.getElem?_eq_getElem hm]
        rfl
      have htake : snaps.take (k + 1 + 1) =
          snaps.take (k + 1) ++ [snaps.get ⟨k + 1, hm⟩] := by
        rewrite [List.take_succ, hget]
        rfl
      unfold runUpdates
      rewrite [htake, List.foldl_append]
      show updateCPUStats (runUpdates [] (snaps.take (k + 1))) _ = _
      rewrite [ih hk]
      exact updateCPUStats_of_forall₂ _ _
        (List.chain'_iff_get.mp hchain k (by omega))

/-- Witness for C2 (amended): two well-behaved one-CPU snapshots; after
the second call the cache equals the second snapshot. -/
theorem runUpdates_noop_on_monotone_witness :
    runUpdates []
        (([[⟨1, 1, 1, 1, 1, 1, 1, 1, 1, 1⟩], [⟨2, 2, 2, 2, 2, 2, 2, 2, 2, 2⟩]] :
          List (List CPUStat)).take (1 + 1)) =
      ([[⟨1, 1, 1, 1, 1, 1, 1, 1, 1, 1⟩], [⟨2, 2, 2, 2, 2, 2, 2, 2, 2, 2⟩]] :
          List (List CPUStat)).get ⟨1, by norm_num⟩ :=
  runUpdates_noop_on_monotone
    [[⟨1, 1, 1, 1, 1, 1, 1, 1, 1, 1⟩], [⟨2, 2, 2, 2, 2, 2, 2, 2, 2, 2⟩]]
    (by
      refine List.chain'_cons.mpr ⟨List.Forall₂.cons ?_ List.Forall₂.nil,
        List.chain'_singleton _⟩
      norm_num [CPUStat.le])
    (by
      intro s hs st hst
      simp only [List.head?_cons, Option.some.injEq] at hs
      subst hs
      simp only [List.mem_singleton] at hst
      subst hst
      norm_num [CPUStat.le, CPUStat.empty])
    1 (by norm_num)

/-- C3: with cached idle 100.0 on CPU 0 and a raw idle of 96.5 (a jump
back of 3.5 ≥ 3.0), CPU 0 is reset to the zero baseline and consolidated
from it, so every CPU 0 field adopts the raw reading even where it lies
below the cache; the emitted idle sample for CPU 0 is 96.5; CPU 1 is
untouched by the reset, following its normal ratchet (its regressed user
field keeps the cached 30). -/
theorem updateCPUStats_idle_jump_reset :
    updateOne ⟨50, 5, 5, 100, 5, 5, 5, 5, 5, 5⟩ ⟨40, 4, 4, 96.5, 4, 4, 4, 4, 4, 4⟩ =
      ratchetAll CPUStat.empty ⟨40, 4, 4, 96.5, 4, 4, 4, 4, 4, 4⟩
    ∧ updateCPUStats
        [⟨50, 5, 5, 100, 5, 5, 5, 5, 5, 5⟩, ⟨30, 7, 7, 20, 7, 7, 7, 7, 7, 7⟩]
        [⟨40, 4, 4, 96.5, 4, 4, 4, 4, 4, 4⟩, ⟨29, 8, 8, 21, 8, 8, 8, 8, 8, 8⟩] =
      [⟨40, 4, 4, 96.5, 4, 4, 4, 4, 4, 4⟩, ⟨30, 8, 8, 21, 8, 8, 8, 8, 8, 8⟩]
    ∧ Sample.mk .cpuSeconds 96.5 0 "idle" ∈
        cpuUpdateEmit true (updateCPUStats
          [⟨50, 5, 5, 100, 5, 5, 5, 5, 5, 5⟩, ⟨30, 7, 7, 20, 7, 7, 7, 7, 7, 7⟩]
          [⟨40, 4, 4, 96.5, 4, 4, 4, 4, 4, 4⟩, ⟨29, 8, 8, 21, 8, 8, 8, 8, 8, 8⟩]) := by
  have h₂ : updateCPUStats
      [⟨50, 5, 5, 100, 5, 5, 5, 5, 5, 5⟩, ⟨30, 7, 7, 20, 7, 7, 7, 7, 7, 7⟩]
      [⟨40, 4, 4, 96.5, 4, 4, 4, 4, 4, 4⟩, ⟨29, 8, 8, 21, 8, 8, 8, 8, 8, 8⟩] =
      [⟨40, 4, 4, 96.5, 4, 4, 4, 4, 4, 4⟩, ⟨30, 8, 8, 21, 8, 8, 8, 8, 8, 8⟩] := by
    norm_num [updateCPUStats, updateOne, jumpBackSeconds, CPUStat.empty]
  refine ⟨?_, h₂, ?_⟩
  · rewrite [updateOne_of_jump _ _ (by norm_num [jumpBackSeconds])]
    rfl
  · rewrite [h₂]
    norm_num [cpuUpdateEmit, emitFrom, cpuSamples, guestSamples]

theorem filter_cpuSamples_cpu (i : ℕ) (s : CPUStat) :
    (cpuSamples i s).filter (fun smp => smp.family == MetricFamily.cpuSeconds) =
      cpuSamples i s := rfl

theorem filter_cpuSamples_guest (i : ℕ) (s : CPUStat) :
    (cpuSamples i s).filter
      (fun smp => smp.family == MetricFamily.cpuGuestSeconds) = [] := rfl

theorem filter_guestSamples_cpu (i : ℕ) (s : CPUStat) :
    (guestSamples i s).filter
      (fun smp => smp.family == MetricFamily.cpuSeconds) = [] := rfl

theorem filter_guestSamples_guest (i : ℕ) (s : CPUStat) :
    (guestSamples i s).filter
      (fun smp => smp.family == MetricFamily.cpuGuestSeconds) =
      guestSamples i s := rfl

theorem emitFrom_true_cons (i : ℕ) (s : CPUStat) (rest : List CPUStat) :
    emitFrom true i (s :: rest) =
      cpuSamples i s ++ guestSamples i s ++ emitFrom true (i + 1) rest := rfl

theorem emitFrom_false_cons (i : ℕ) (s : CPUStat) (rest : List CPUStat) :
    emitFrom false i (s :: rest) =
      cpuSamples i s ++ emitFrom false (i + 1) rest := rfl

theorem emitFrom_filter (stats : List CPUStat) : ∀ i : ℕ,
    ((emitFrom true i stats).filter
        (fun smp => smp.family == MetricFamily.cpuSeconds) =
      emitFrom false i stats)
    ∧ ((emitFrom false i stats).filter
        (fun smp => smp.family == MetricFamily.cpuGuestSeconds) = [])
    ∧ ((emitFrom true i stats).filter
        (fun smp => smp.family == MetricFamily.cpuGuestSeconds) =
      guestOnly i stats) := by
  induction stats with
  | nil => exact fun i => ⟨rfl, rfl, rfl⟩
  | cons s rest ih =>
      intro i
      refine ⟨?_, ?_, ?_⟩ <;>
        simp only [emitFrom_true_cons, emitFrom_false_cons, guestOnly,
          List.filter_append,
          filter_cpuSamples_cpu, filter_cpuSamples_guest, filter_guestSamples_cpu,
          filter_guestSamples_guest, (ih (i + 1)).1, (ih (i + 1)).2.1,
          (ih (i + 1)).2.2, List.append_nil, List.nil_append]

/-- C7: the CPU collector's `Update` emits the cached `Guest` and
`GuestNice` counters, as the guest metric family with modes `user` and
`nice`, exactly when the guest toggle is enabled: with the toggle off
the guest-family sample list is empty, and the ordinary cpu-family
samples of the enabled run are exactly the disabled run's output (guest
time is not subtracted from user or nice). -/
theorem cpuUpdateEmit_guest_toggle (stats : List CPUStat) :
    ((cpuUpdateEmit true stats).filter
        (fun smp => smp.family == MetricFamily.cpuSeconds) =
      cpuUpdateEmit false stats)
    ∧ ((cpuUpdateEmit false stats).filter
        (fun smp => smp.family == MetricFamily.cpuGuestSeconds) = [])
    ∧ ((cpuUpdateEmit true stats).filter
        (fun smp => smp.family == MetricFamily.cpuGuestSeconds) =
      guestOnly 0 stats) :=
  emitFrom_filter stats 0

/-- C8: each of the buddyinfo, bcache and cpufreq `Update` operations
aborts atomically on a data-source read failure: the emitted sample list
is empty and the error is returned. -/
theorem update_aborts_on_read_failure (e : String) (priorityStats : Bool)
    (statsFull statsNoPriority : Except String (List BcacheStats))
    (updateBcacheStats : BcacheStats → List BcacheSample)
    (hread : (if priorityStats then statsFull else statsNoPriority) =
      Except.error e) :
    buddyinfoUpdate (Except.error e) =
        ([], some ("couldnt get buddyinfo: " ++ e))
    ∧ bcacheUpdate priorityStats statsFull statsNoPriority updateBcacheStats =
        ([], some ("failed to retrieve bcache stats: " ++ e))
    ∧ cpuFreqUpdate (Except.error e) = ([], some e) := by
  refine ⟨rfl, ?_, rfl⟩
  unfold bcacheUpdate
  rewrite [hread]
  rfl

/-- Witness for C8 at a concrete failing read. -/
theorem update_aborts_on_read_failure_witness :
    buddyinfoUpdate (Except.error "boom") =
        ([], some ("couldnt get buddyinfo: " ++ "boom"))
    ∧ bcacheUpdate true (Except.error "boom") (Except.ok []) (fun _ => []) =
        ([], some ("failed to retrieve bcache stats: " ++ "boom"))
    ∧ cpuFreqUpdate (Except.error "boom") = ([], some "boom") :=
  update_aborts_on_read_failure "boom" true (Except.error "boom")
    (Except.ok []) (fun _ => []) rfl

/-- C9: each collector factory fails fast: when opening the kernel
pseudo-filesystem root fails, the factory returns the wrapped error and
no collector value. -/
theorem factories_fail_fast (err : String) :
    NewCPUCollector (Except.error err) =
        Except.error ("failed to open procfs: " ++ err)
    ∧ NewBuddyinfoCollector (Except.error err) =
        Except.error ("failed to open procfs: " ++ err)
    ∧ NewBcacheCollector (Except.error err) =
        Except.error ("failed to open sysfs: " ++ err) :=
  ⟨rfl, rfl, rfl⟩

theorem exists_of_mem_freqSamples (st : CPUFreqStats) (smp : FreqSample)
    (h : smp ∈ freqSamples st) :
    ∃ k : ℕ, freqField st smp.family = some k ∧ smp.value = (k : ℚ) * 1000 ∧
      smp.cpuName = st.Name := by
  obtain ⟨nm, cur, mn, mx⟩ := st
  rcases cur with _ | vc <;> rcases mn with _ | vm <;> rcases mx with _ | vx <;>
    simp only [freqSamples, List.mem_append, List.mem_singleton,
      List.not_mem_nil, or_false, false_or] at h <;>
    (rcases h with (rfl | rfl) | rfl <;> exact ⟨_, rfl, rfl, rfl⟩)

theorem mem_freqSamples_of_field (st : CPUFreqStats) (fam : FreqFamily)
    (k : ℕ) (h : freqField st fam = some k) :
    FreqSample.mk fam ((k : ℚ) * 1000) st.Name ∈ freqSamples st := by
  obtain ⟨nm, cur, mn, mx⟩ := st
  cases fam <;> simp only [freqField] at h <;> subst h <;>
    simp [freqSamples]

/-- C10: every sample the cpufreq collector emits for a successful read
comes from a present optional kilohertz field and equals that raw value
multiplied by exactly 1000; a present field always yields its sample,
and an absent field contributes no sample of its family. -/
theorem cpuFreqUpdate_hertz (freqs : List CPUFreqStats) :
    (∀ smp ∈ (cpuFreqUpdate (Except.ok freqs)).1,
        ∃ st ∈ freqs, ∃ k : ℕ, freqField st smp.family = some k ∧
          smp.value = (k : ℚ) * 1000 ∧ smp.cpuName = st.Name)
    ∧ (∀ st ∈ freqs, ∀ fam k, freqField st fam = some k →
        FreqSample.mk fam ((k : ℚ) * 1000) st.Name ∈
          (cpuFreqUpdate (Except.ok freqs)).1)
    ∧ (∀ st ∈ freqs, ∀ fam, freqField st fam = none →
        ∀ smp ∈ freqSamples st, smp.family ≠ fam) := by
  refine ⟨?_, ?_, ?_⟩
  · intro smp h
    rcases List.mem_flatten.mp h with ⟨l, hl, hmem⟩
    rcases List.mem_map.mp hl with ⟨st, hst, rfl⟩
    exact ⟨st, hst, exists_of_mem_freqSamples st smp hmem⟩
  · intro st hst fam k hk
    exact List.mem_flatten.mpr
      ⟨freqSamples st, List.mem_map_of_mem freqSamples hst,
        mem_freqSamples_of_field st fam k hk⟩
  · intro st _ fam hnone smp hmem hfam
    rcases exists_of_mem_freqSamples st smp hmem with ⟨k, hk, _, _⟩
    rw [hfam, hnone] at hk
    exact Option.noConfusion hk

/-- Witness for C10: a record with a present current frequency of 5 kHz
yields the 5000 Hz sample. -/
theorem cpuFreqUpdate_hertz_witness :
    FreqSample.mk FreqFamily.currentHz ((5 : ℚ) * 1000) "cpu0" ∈
      (cpuFreqUpdate (Except.ok [⟨"cpu0", some 5, none, some 7⟩])).1 :=
  (cpuFreqUpdate_hertz [⟨"cpu0", some 5, none, some 7⟩]).2.1
    ⟨"cpu0", some 5, none, some 7⟩ (List.mem_singleton.mpr rfl)
    FreqFamily.currentHz 5 rfl

end GBS
